import Mathlib

/-
Verification development for the goproxy server command
(cmd/goproxy/internal/server_cmd.go).

Shallow embedding conventions:
* Go strings are modelled as lists of characters (`Str`); all paths in the
  claims are ASCII, where Go's byte-wise operations and the character-wise
  model coincide.
* `time.Duration` is modelled as `Int` (nanoseconds; flag values may be
  negative).
* The standard-library helpers the source calls (`filepath.FromSlash`,
  `filepath.VolumeName`, `filepath.IsAbs`, `strings.HasPrefix`,
  `strings.TrimPrefix`, `http.StripPrefix`, `context.WithTimeout`,
  `os.Open`) are embedded from the Go standard library sources (Go 1.22);
  the Windows variants of the filepath functions are the ones relevant to
  the drive-letter claims.
* The filesystem is an explicit parameter `FSys` mapping an OS path to the
  byte contents of the file stored there (`none` when opening that path
  fails, e.g. the file does not exist).
-/

set_option autoImplicit false

abbrev Str := List Char

abbrev Duration := Int

def second : Duration := 1000000000

abbrev Bytes := List UInt8

abbrev FSys := Str → Option Bytes

/-! ### path/filepath model (Windows = drive-letter platform, Unix otherwise) -/

/-- Go `path/filepath.isSlash` (Windows): both separators count. -/
def isSlash (c : Char) : Bool := c = '\\' || c = '/'

/-- Go `filepath.FromSlash` on Windows: replace each slash with a backslash. -/
def fromSlashW (s : Str) : Str := s.map (fun c => if c = '/' then '\\' else c)

/-- ASCII upper-casing used by `filepath.toUpper` on Windows. -/
def toUpperB (c : Char) : Char :=
  if 'a' ≤ c ∧ c ≤ 'z' then Char.ofNat (c.toNat - 32) else c

/-- Helper for `pathHasPfxFold`: match `p` against the front of `s`
(slash-insensitively and ASCII-case-insensitively), returning the rest of
`s` on success. -/
def pfxFoldRest : Str → Str → Option Str
  | s, [] => some s
  | [], _ :: _ => none
  | c :: s, d :: p =>
    if (if isSlash d then isSlash c else toUpperB c = toUpperB d) then
      pfxFoldRest s p
    else none

/-- Go `filepath.pathHasPrefixFold` (Windows): case- and slash-insensitive
prefix test that additionally requires the character after the matched part
to be a separator (or the end of the string). -/
def pathHasPfxFold (s p : Str) : Bool :=
  match pfxFoldRest s p with
  | none => false
  | some [] => true
  | some (c :: _) => isSlash c

/-- Go `filepath.cutPath` (Windows): split around the first separator;
`none` when there is no separator. -/
def cutPath : Str → Option (Str × Str)
  | [] => none
  | c :: rest =>
    if isSlash c then some ([], rest)
    else
      match cutPath rest with
      | some (b, a) => some (c :: b, a)
      | none => none

/-- Index (within the given suffix) of the second separator; the `seen`
flag records whether one separator has already been passed. Reaching the
end yields the suffix length, matching Go `filepath.uncLen`'s fallthrough. -/
def sndSlashIdx : Str → Bool → Nat
  | [], _ => 0
  | c :: rest, seen =>
    if isSlash c then
      if seen then 0 else 1 + sndSlashIdx rest true
    else 1 + sndSlashIdx rest seen

/-- Go `filepath.uncLen` (Windows): length of the volume prefix of a UNC
path, where the UNC host starts at index `pfxLen`. -/
def uncLen (path : Str) (pfxLen : Nat) : Nat :=
  pfxLen + sndSlashIdx (path.drop pfxLen) false

def bs2 : Str := ['\\', '\\']

def uncDevPfx : Str := ['\\', '\\', '.', '\\', 'U', 'N', 'C']

def bsbsDot : Str := ['\\', '\\', '.']

def bsbsQm : Str := ['\\', '\\', '?']

def bsQmQm : Str := ['\\', '?', '?']

/-- Go `filepath.volumeNameLen` on Windows (Go 1.22): length of the leading
volume component (drive letter, UNC root, or DOS device path root). -/
def volumeNameLen (path : Str) : Nat :=
  if 2 ≤ path.length ∧ path.getD 1 ' ' = ':' then 2
  else if path.length < 2 ∨ isSlash (path.getD 0 ' ') = false then 0
  else if pathHasPfxFold path uncDevPfx then uncLen path 8
  else if pathHasPfxFold path bsbsDot ∨ pathHasPfxFold path bsbsQm ∨
      pathHasPfxFold path bsQmQm then
    (if path.length = 3 then 3
     else
       match cutPath (path.drop 4) with
       | none => path.length
       | some (_, rest) => path.length - rest.length - 1)
  else if 2 ≤ path.length ∧ isSlash (path.getD 1 ' ') then uncLen path 2
  else 0

/-- Go `filepath.VolumeName` on Windows: the leading volume component,
normalised to backslashes. -/
def volumeName (path : Str) : Str := fromSlashW (path.take (volumeNameLen path))

/-- Go `filepath.IsAbs` on Windows (Go 1.22). -/
def isAbsW (path : Str) : Bool :=
  let l := volumeNameLen path
  if l = 0 then false
  else if isSlash (path.getD 0 ' ') && isSlash (path.getD 1 ' ') then true
  else
    match path.drop l with
    | [] => false
    | c :: _ => isSlash c

/-- Go `filepath.IsAbs` on Unix: the path starts with a slash. -/
def isAbsU : Str → Bool
  | '/' :: _ => true
  | _ => false

/-- Go `strings.HasPrefix` (character-wise). -/
def hasPfx : Str → Str → Bool
  | _, [] => true
  | [], _ :: _ => false
  | c :: s, d :: p => c = d && hasPfx s p

/-- Go `strings.TrimPrefix`: drop the prefix when present, else return the
string unchanged. -/
def trimPfx (s p : Str) : Str := if hasPfx s p then s.drop p.length else s

/-! ### httpDirFS.Open -/

/-- Result of `httpDirFS.Open`: a runtime panic (slice out of range), an
error produced by the validation logic before any filesystem access
(`errors.New` in the source), the underlying filesystem error from
`os.Open`, or an open read handle on the named file with its byte
contents. -/
inductive OpenResult where
  | panic : OpenResult
  | invalidPath (msg : String) : OpenResult
  | fsError (path : Str) : OpenResult
  | ok (path : Str) (contents : Bytes) : OpenResult
deriving DecidableEq

def driveLetterMsg : String := "file URL missing drive letter"

def notAbsoluteMsg : String := "path is not absolute"

/-- Model of `os.Open`: consult the filesystem for the named path. -/
def osOpen (fs : FSys) (name : Str) : OpenResult :=
  match fs name with
  | some c => .ok name c
  | none => .fsError name

/-- The Windows branch of `httpDirFS.Open` after `name = name[1:]` has
removed the first character: check the drive designator, then absoluteness,
then fall through to `os.Open`. -/
def openWAfterStrip (fs : FSys) (name : Str) : OpenResult :=
  let vol := volumeName name
  if vol = [] ∨ hasPfx vol bs2 = true then .invalidPath driveLetterMsg
  else if isAbsW name = false then .invalidPath notAbsoluteMsg
  else osOpen fs name

/-- `httpDirFS.Open` on a drive-letter platform (`filepath.Separator ==
'\\'`): convert slashes, slice off the first character (`name[1:]`, which
panics on the empty string), then validate and open. -/
def openW (fs : FSys) (name0 : Str) : OpenResult :=
  match fromSlashW name0 with
  | [] => .panic
  | _ :: rest => openWAfterStrip fs rest

/-- `httpDirFS.Open` on a non-drive-letter platform: `filepath.FromSlash`
is the identity (the separator is already a slash) and the drive-letter
block is skipped, so only the absoluteness check runs before `os.Open`. -/
def openU (fs : FSys) (name : Str) : OpenResult :=
  if isAbsU name = false then .invalidPath notAbsoluteMsg
  else osOpen fs name

example : openU (fun _ => none) "rel/x".toList = .invalidPath notAbsoluteMsg := by decide

example :
    openW (fun n => if n = "C:\\foo".toList then some [102] else none)
      "/C:/foo".toList = .ok "C:\\foo".toList [102] := by decide

example :
    openW (fun _ => none) "/C:/foo".toList = .fsError "C:\\foo".toList := by decide

example :
    openW (fun _ => some []) "//host/share/x".toList = .invalidPath driveLetterMsg := by
  decide

example : openW (fun _ => some []) "".toList = .panic := by decide

example : openW (fun _ => some []) "/foo/bar".toList = .invalidPath driveLetterMsg := by
  decide

/-! ### Configuration (serverCmdConfig) -/

/-- `serverCmdConfig`: the configuration snapshot for the server command.
The field `pathPfx` models the source field `pathPrefix`. -/
structure ServerCmdConfig where
  address : String
  tlsCertFile : String
  tlsKeyFile : String
  pathPfx : Str
  goBinName : String
  maxDirectFetches : Int
  proxiedSUMDBs : List String
  cacheDir : String
  tempDir : String
  insecure : Bool
  connectTimeout : Duration
  fetchTimeout : Duration
  shutdownTimeout : Duration

/-- The flag defaults installed by `newServerCmdConfig` (with `tempDir`
standing in for `os.TempDir()`). -/
def defaultConfig : ServerCmdConfig where
  address := "localhost:8080"
  tlsCertFile := ""
  tlsKeyFile := ""
  pathPfx := []
  goBinName := "go"
  maxDirectFetches := 0
  proxiedSUMDBs := []
  cacheDir := "caches"
  tempDir := "/tmp"
  insecure := false
  connectTimeout := 30 * second
  fetchTimeout := 600 * second
  shutdownTimeout := 10 * second

/-! ### Contexts, requests, and the handler chain -/

/-- `context.Context`, restricted to the constructors the source uses:
`context.Background()` and `context.WithTimeout(parent, d)`. The parent
link records which context a timeout context was derived from. -/
inductive Context where
  | background : Context
  | withTimeout (parent : Context) (d : Duration) : Context
deriving DecidableEq

/-- Whether a deadline has been armed on the context. -/
def Context.hasDeadline : Context → Bool
  | .background => false
  | .withTimeout _ _ => true

/-- The two `url.URL` fields `http.StripPrefix` reads and rewrites. -/
structure URL where
  path : Str
  rawPath : Str
deriving DecidableEq

/-- An inbound `http.Request`: its context and its URL. -/
structure Request where
  ctx : Context
  url : URL
deriving DecidableEq

/-- `http.Request.WithContext`: the same request carrying a new context. -/
def Request.withContext (r : Request) (c : Context) : Request := { r with ctx := c }

/-- A handler invocation either returns normally or panics. -/
inductive HOutcome where
  | normal : HOutcome
  | panicked : HOutcome
deriving DecidableEq

/-- Observable events of one request's trip through the handler chain:
the wrapped goproxy handler being invoked with a concrete request, the
`cancel` function of the deadline middleware being called, and
`http.NotFound` writing a 404 response. -/
inductive Event where
  | invokeGoproxy (req : Request) : Event
  | cancelCalled : Event
  | wroteNotFound : Event
deriving DecidableEq

/-- Behaviour of the opaque goproxy handler on a given request. -/
abbrev Behavior := Request → HOutcome

/-- The handler value assembled by `runServerCmd` (lines 88-100): the
goproxy handler, optionally wrapped by `http.StripPrefix`, optionally
wrapped by the fetch-timeout closure. -/
inductive Handler where
  | goproxyH : Handler
  | stripPfx (p : Str) (inner : Handler) : Handler
  | timeout (d : Duration) (inner : Handler) : Handler
deriving DecidableEq

/-- `http.StripPrefix`: returns the inner handler unchanged for the empty
prefix, else the stripping wrapper. -/
def stripPfxH (p : Str) (h : Handler) : Handler :=
  if p = [] then h else .stripPfx p h

/-- Trace semantics of serving one request. `goproxyH` records its
invocation and behaves as `beh` says. `stripPfx` is Go 1.22
`http.StripPrefix`: trim the prefix from `URL.Path` and `URL.RawPath`; if
`Path` shrank and (`RawPath` was empty or also shrank) the inner handler
runs on the rewritten request, otherwise `http.NotFound` answers 404 and
the inner handler never runs. `timeout` is the fetch-timeout closure:
derive a timeout context from the request's context, invoke the inner
handler on the request carrying the derived context, and call `cancel()`
afterwards — the call is not deferred, so a panic skips it. -/
def Handler.run (beh : Behavior) : Handler → Request → List Event × HOutcome
  | .goproxyH, req => ([.invokeGoproxy req], beh req)
  | .stripPfx p h, req =>
    let pth := trimPfx req.url.path p
    let rp := trimPfx req.url.rawPath p
    if pth.length < req.url.path.length ∧
        (req.url.rawPath = [] ∨ rp.length < req.url.rawPath.length) then
      h.run beh { req with url := ⟨pth, rp⟩ }
    else ([.wroteNotFound], .normal)
  | .timeout d h, req =>
    let out := h.run beh (req.withContext (.withTimeout req.ctx d))
    match out.2 with
    | .normal => (out.1 ++ [.cancelCalled], .normal)
    | .panicked => out

/-- Lines 88-91 of the source: the goproxy handler, wrapped by
`http.StripPrefix` when the configured path prefix is nonempty. -/
def basePipeline (cfg : ServerCmdConfig) : Handler :=
  if cfg.pathPfx ≠ [] then stripPfxH cfg.pathPfx Handler.goproxyH
  else Handler.goproxyH

/-- Lines 88-100 of the source: the full handler chain, adding the
fetch-timeout wrapper when `cfg.fetchTimeout > 0`. -/
def buildHandler (cfg : ServerCmdConfig) : Handler :=
  if cfg.fetchTimeout > 0 then .timeout cfg.fetchTimeout (basePipeline cfg)
  else basePipeline cfg

/-! ### Transport builder -/

/-- `tls.Config`, restricted to the field the source sets. -/
structure TLSConfig where
  insecureSkipVerify : Bool
deriving DecidableEq

/-- The outbound `http.Transport` as configured by lines 75-78: the
dialer's timeout and keep-alive, the TLS client configuration, and the
set of registered protocol schemes. -/
structure Transport where
  dialTimeout : Duration
  dialKeepAlive : Duration
  tlsClientConfig : TLSConfig
  protocols : List String
deriving DecidableEq

/-- Lines 75-78 of the source: clone the default transport, then install a
dialer with the configured connect timeout and a 30-second keep-alive, a
TLS configuration skipping verification iff `--insecure` is set, and the
`file` protocol handler backed by `httpDirFS`. A pure construction: no
network activity and no failure path. -/
def buildTransport (cfg : ServerCmdConfig) : Transport where
  dialTimeout := cfg.connectTimeout
  dialKeepAlive := 30 * second
  tlsClientConfig := ⟨cfg.insecure⟩
  protocols := ["file"]

/-! ### Supervisor tail (lines 118-129) -/

/-- The error a serve loop can deposit in `serverError`: the conventional
`http.ErrServerClosed`, or any other error. -/
inductive ServeError where
  | serverClosed : ServeError
  | other (msg : String) : ServeError
deriving DecidableEq

/-- `errors.Is(e, http.ErrServerClosed)`. -/
def isServerClosed : ServeError → Bool
  | .serverClosed => true
  | .other _ => false

/-- Lines 123-128: the context handed to `server.Shutdown` — derived from
`context.Background()` with the shutdown timeout when that is positive,
`context.Background()` itself otherwise. -/
def shutdownContext (g : Duration) : Context :=
  if g > 0 then .withTimeout .background g else .background

/-- What the tail of `runServerCmd` did: the value it returned, whether
`server.Shutdown` was called, and with which context. -/
structure FinishResult where
  returned : Option ServeError
  shutdownCalled : Bool
  shutdownCtx : Option Context
deriving DecidableEq

/-- Lines 118-129 of `runServerCmd`, entered once `stopCtx` fires:
if `serverError` is non-nil and is not `http.ErrServerClosed`, return it
immediately; otherwise build the shutdown context and return the result of
`server.Shutdown` on it. `shutdownResult` is the abstract outcome of that
`Shutdown` call. -/
def supervisorFinish (serverError : Option ServeError) (g : Duration)
    (shutdownResult : Option ServeError) : FinishResult :=
  match serverError with
  | some e =>
    if isServerClosed e = false then ⟨some e, false, none⟩
    else ⟨shutdownResult, true, some (shutdownContext g)⟩
  | none => ⟨shutdownResult, true, some (shutdownContext g)⟩

/-! ### Concrete fixtures used on the theorem side -/

/-- A serve-loop error that is not `http.ErrServerClosed`. -/
def errAddrInUse : ServeError := .other "listen tcp: address already in use"

def behN : Behavior := fun _ => .normal

def behP : Behavior := fun _ => .panicked

def cfgT1 : ServerCmdConfig := { defaultConfig with fetchTimeout := 1 }

def cfgT0 : ServerCmdConfig := { defaultConfig with fetchTimeout := 0 }

def cfgNeg : ServerCmdConfig := { defaultConfig with fetchTimeout := -5 }

def cfgPfx : ServerCmdConfig :=
  { defaultConfig with pathPfx := "/proxy".toList, fetchTimeout := 0 }

def req0 : Request := ⟨.background, ⟨"/m".toList, []⟩⟩

def reqProxy : Request := ⟨.background, ⟨"/proxy/mod/info".toList, []⟩⟩

def reqOther : Request := ⟨.background, ⟨"/other".toList, []⟩⟩

def fooBytes : Bytes := [102, 111, 111]

def barBytes : Bytes := [98, 97, 114]

def hostsBytes : Bytes := [104]

def fsC4 : FSys := fun n => if n = "C:\\foo".toList then some fooBytes else none

def fsC5 : FSys := fun n => if n = "D:\\bar".toList then some barBytes else none

def fsU : FSys := fun n => if n = "/etc/hosts".toList then some hostsBytes else none

/-! ### Helper lemmas -/

theorem hasPfx_le (s p : Str) (h : hasPfx s p = true) : p.length ≤ s.length := by
  induction p generalizing s with
  | nil => simp
  | cons d p ih =>
    cases s with
    | nil => simp [hasPfx] at h
    | cons c s =>
      simp only [hasPfx, Bool.and_eq_true] at h
      simpa using ih s h.2

theorem trimPfx_of_pos (s p : Str) (h : hasPfx s p = true) :
    trimPfx s p = s.drop p.length := by
  simp [trimPfx, h]

theorem trimPfx_of_neg (s p : Str) (h : hasPfx s p = false) : trimPfx s p = s := by
  simp [trimPfx, h]

theorem openWAfterStrip_ne_panic (fs : FSys) (n : Str) :
    openWAfterStrip fs n ≠ .panic := by
  by_cases h1 : volumeName n = [] ∨ hasPfx (volumeName n) bs2 = true
  · simp [openWAfterStrip, h1]
  · by_cases h2 : isAbsW n = false
    · simp [openWAfterStrip, h1, h2]
    · cases h3 : fs n <;> simp [openWAfterStrip, osOpen, h1, h2, h3]

theorem base_invoke_ctx (cfg : ServerCmdConfig) (beh : Behavior) (req r : Request)
    (h : Event.invokeGoproxy r ∈ ((basePipeline cfg).run beh req).1) :
    r.ctx = req.ctx := by
  unfold basePipeline at h
  by_cases hp : cfg.pathPfx = []
  · simp only [hp, ne_eq, not_true_eq_false, if_false, Handler.run,
      List.mem_singleton, Event.invokeGoproxy.injEq] at h
    rw [h]
  · simp only [ne_eq, hp, not_false_eq_true, if_true, stripPfxH, if_neg hp,
      Handler.run] at h
    split at h
    · simp only [Handler.run, List.mem_singleton, Event.invokeGoproxy.injEq] at h
      rw [h]
    · simp at h

/-! ### Claim C1 -/

/-- Claim C1, counterexample: when the serve loop deposits an error other
than `http.ErrServerClosed`, `runServerCmd` returns that error with
`server.Shutdown` never called — the claim's assertion that graceful
shutdown is still performed before the error is surfaced fails here. -/
theorem c1_counterexample :
    isServerClosed errAddrInUse = false ∧
      (supervisorFinish (some errAddrInUse) (10 * second) none).returned =
        some errAddrInUse ∧
      (supervisorFinish (some errAddrInUse) (10 * second) none).shutdownCalled =
        false := by
  decide

/-- Claim C1, amended: for every serve-loop error other than the
conventional server-closed value, that error is the terminal result of
`runServerCmd`, but graceful shutdown is skipped on this path — the
function returns the error immediately without calling `server.Shutdown`. -/
theorem c1_serve_error_terminal (e : ServeError) (g : Duration)
    (r : Option ServeError) (h : isServerClosed e = false) :
    supervisorFinish (some e) g r = ⟨some e, false, none⟩ := by
  simp [supervisorFinish, h]

/-- Witness for `c1_serve_error_terminal` at a concrete serve-loop error. -/
theorem c1_witness :
    supervisorFinish (some errAddrInUse) (10 * second) none =
      ⟨some errAddrInUse, false, none⟩ :=
  c1_serve_error_terminal errAddrInUse (10 * second) none (by decide)

/-! ### Claim C7 -/

/-- Claim C7: whenever the supervisor calls `server.Shutdown`, the context
it passes is `shutdownContext g`; that context is derived from
`context.Background()` with deadline `g` when the shutdown-grace duration
`g` is positive, and is the deadline-free `context.Background()` itself
when `g` is zero. -/
theorem c7_shutdown_grace (g : Duration) (se r : Option ServeError) :
    ((supervisorFinish se g r).shutdownCalled = true →
      (supervisorFinish se g r).shutdownCtx = some (shutdownContext g)) ∧
    (0 < g → shutdownContext g = .withTimeout .background g) ∧
    (g = 0 →
      shutdownContext g = .background ∧ (shutdownContext g).hasDeadline = false) := by
  refine ⟨?_, ?_, ?_⟩
  · cases se with
    | none => intro _; rfl
    | some e =>
      by_cases h : isServerClosed e = false
      · intro hc; simp [supervisorFinish, h] at hc
      · intro _; simp [supervisorFinish, h]
  · intro hg; simp [shutdownContext, hg]
  · intro hg; subst hg; simp [shutdownContext, Context.hasDeadline]

/-- Witness for `c7_shutdown_grace`: a positive grace period yields a
deadline-bounded context, a zero grace period yields the deadline-free
background context, and a completed shutdown used exactly that context. -/
theorem c7_witness :
    (supervisorFinish none (5 * second) none).shutdownCtx =
        some (shutdownContext (5 * second)) ∧
      shutdownContext (5 * second) = .withTimeout .background (5 * second) ∧
      shutdownContext 0 = .background ∧
      (shutdownContext 0).hasDeadline = false :=
  ⟨(c7_shutdown_grace (5 * second) none none).1 rfl,
   (c7_shutdown_grace (5 * second) none none).2.1 (by decide),
   ((c7_shutdown_grace 0 none none).2.2 rfl).1,
   ((c7_shutdown_grace 0 none none).2.2 rfl).2⟩

/-! ### Claim C8 -/

/-- Claim C8: for every configuration, the transport built at startup has
a dialer whose connect timeout equals the configured connect-timeout value
and a fixed 30-second keep-alive, a TLS client configuration whose
certificate verification is disabled iff the insecure flag is set, and the
`file` pseudo-protocol registered; `buildTransport` is a total pure
function, so construction performs no I/O and cannot fail. -/
theorem c8_transport (cfg : ServerCmdConfig) :
    (buildTransport cfg).dialTimeout = cfg.connectTimeout ∧
      (buildTransport cfg).dialKeepAlive = 30 * second ∧
      ((buildTransport cfg).tlsClientConfig.insecureSkipVerify = true ↔
        cfg.insecure = true) ∧
      "file" ∈ (buildTransport cfg).protocols := by
  refine ⟨rfl, rfl, Iff.rfl, ?_⟩
  simp [buildTransport]

/-! ### Claim C10 -/

/-- Claim C10: the zero-means-unlimited behaviour extends to negative
durations, because both source checks test strictly greater than zero —
for every fetch timeout at most zero the deadline wrapper is not installed
and the handler chain is the unwrapped pipeline, and for every shutdown
timeout at most zero the shutdown context is the deadline-free background
context. -/
theorem c10_nonpositive_timeouts (cfg : ServerCmdConfig) (g : Duration) :
    (cfg.fetchTimeout ≤ 0 → buildHandler cfg = basePipeline cfg) ∧
      (g ≤ 0 →
        shutdownContext g = .background ∧
          (shutdownContext g).hasDeadline = false) := by
  constructor
  · intro h
    simp [buildHandler, not_lt.mpr h]
  · intro h
    simp [shutdownContext, not_lt.mpr h, Context.hasDeadline]

/-- Witness for `c10_nonpositive_timeouts` at negative durations. -/
theorem c10_witness :
    buildHandler cfgNeg = basePipeline cfgNeg ∧
      shutdownContext (-3) = .background ∧
      (shutdownContext (-3)).hasDeadline = false :=
  ⟨(c10_nonpositive_timeouts cfgNeg (-3)).1 (by decide),
   ((c10_nonpositive_timeouts cfgNeg (-3)).2 (by decide)).1,
   ((c10_nonpositive_timeouts cfgNeg (-3)).2 (by decide)).2⟩

/-! ### Claim C6 -/

/-- Claim C6: when the configured fetch timeout is positive, the handler
chain carries the timeout wrapper, and every invocation of the downstream
goproxy handler happens with the derived context — a timeout context whose
parent is the request's own context and whose deadline is the configured
fetch timeout; when the fetch timeout is zero the chain is the unwrapped
pipeline and the downstream handler sees the request's original context,
so no deadline is armed. -/
theorem c6_fetch_timeout (cfg : ServerCmdConfig) (beh : Behavior) (req : Request) :
    (0 < cfg.fetchTimeout →
      buildHandler cfg = .timeout cfg.fetchTimeout (basePipeline cfg) ∧
      ∀ r : Request,
        Event.invokeGoproxy r ∈ ((buildHandler cfg).run beh req).1 →
          r.ctx = Context.withTimeout req.ctx cfg.fetchTimeout) ∧
    (cfg.fetchTimeout = 0 →
      buildHandler cfg = basePipeline cfg ∧
      ∀ r : Request,
        Event.invokeGoproxy r ∈ ((buildHandler cfg).run beh req).1 →
          r.ctx = req.ctx) := by
  constructor
  · intro ht
    have hb : buildHandler cfg = .timeout cfg.fetchTimeout (basePipeline cfg) := by
      simp [buildHandler, ht]
    refine ⟨hb, ?_⟩
    intro r hr
    rw [hb] at hr
    simp only [Handler.run] at hr
    rcases hsplit : (basePipeline cfg).run beh
        (req.withContext (.withTimeout req.ctx cfg.fetchTimeout)) with ⟨tr, out⟩
    rw [hsplit] at hr
    have hmem : Event.invokeGoproxy r ∈ tr := by
      cases out with
      | normal => simpa using hr
      | panicked => simpa using hr
    have := base_invoke_ctx cfg beh
      (req.withContext (.withTimeout req.ctx cfg.fetchTimeout)) r
      (by rw [hsplit]; exact hmem)
    simpa [Request.withContext] using this
  · intro h0
    have hb : buildHandler cfg = basePipeline cfg := by
      simp [buildHandler, h0]
    exact ⟨hb, fun r hr => base_invoke_ctx cfg beh req r (hb ▸ hr)⟩

/-- Witness for `c6_fetch_timeout`: with a one-nanosecond fetch timeout the
chain is the timeout wrapper around the bare goproxy handler and the
invoked request carries the derived context; with a zero fetch timeout the
chain is the bare pipeline. -/
theorem c6_witness :
    buildHandler cfgT1 = .timeout 1 (basePipeline cfgT1) ∧
      (Request.mk (Context.withTimeout Context.background 1) ⟨"/m".toList, []⟩).ctx =
        Context.withTimeout req0.ctx cfgT1.fetchTimeout ∧
      buildHandler cfgT0 = basePipeline cfgT0 :=
  ⟨((c6_fetch_timeout cfgT1 behN req0).1 (by decide)).1,
   ((c6_fetch_timeout cfgT1 behN req0).1 (by decide)).2
     (Request.mk (Context.withTimeout Context.background 1) ⟨"/m".toList, []⟩)
     (by decide),
   ((c6_fetch_timeout cfgT0 behN req0).2 rfl).1⟩

/-! ### Claim C2 -/

/-- Claim C2, counterexample: with a positive fetch timeout and a
downstream handler that panics, the trace of the deadline middleware
contains no `cancelCalled` event — the `cancel()` call follows
`ServeHTTP` without `defer`, so the panic exit path does not release the
derived context's resources, contrary to the claim. -/
theorem c2_counterexample :
    (buildHandler cfgT1).run behP req0 =
        ([.invokeGoproxy (req0.withContext (.withTimeout req0.ctx 1))], .panicked) ∧
      Event.cancelCalled ∉ ((buildHandler cfgT1).run behP req0).1 := by
  decide

/-- Claim C2, amended: when the fetch timeout is positive (shown here for
an empty path prefix, where the downstream handler is the goproxy handler
itself), the middleware invokes the downstream handler with the derived
context and calls `cancel` after a normal return; when the downstream
handler panics, `cancel` is not invoked and the panic propagates. -/
theorem c2_cancel_on_normal_return_only (cfg : ServerCmdConfig) (beh : Behavior)
    (req : Request) (ht : 0 < cfg.fetchTimeout) (hp : cfg.pathPfx = []) :
    (beh (req.withContext (.withTimeout req.ctx cfg.fetchTimeout)) = .normal →
      (buildHandler cfg).run beh req =
        ([.invokeGoproxy (req.withContext (.withTimeout req.ctx cfg.fetchTimeout)),
          .cancelCalled], .normal)) ∧
    (beh (req.withContext (.withTimeout req.ctx cfg.fetchTimeout)) = .panicked →
      (buildHandler cfg).run beh req =
        ([.invokeGoproxy (req.withContext (.withTimeout req.ctx cfg.fetchTimeout))],
          .panicked)) := by
  have hb : buildHandler cfg = .timeout cfg.fetchTimeout .goproxyH := by
    simp [buildHandler, ht, basePipeline, hp]
  constructor <;> intro hbeh <;> simp [hb, Handler.run, hbeh]

/-- Witness for `c2_cancel_on_normal_return_only`: a normally returning
handler produces the `cancelCalled` event, a panicking handler does not. -/
theorem c2_witness :
    (buildHandler cfgT1).run behN req0 =
        ([.invokeGoproxy (req0.withContext (.withTimeout req0.ctx cfgT1.fetchTimeout)),
          .cancelCalled], .normal) ∧
      (buildHandler cfgT1).run behP req0 =
        ([.invokeGoproxy (req0.withContext (.withTimeout req0.ctx cfgT1.fetchTimeout))],
          .panicked) :=
  ⟨(c2_cancel_on_normal_return_only cfgT1 behN req0 (by decide) rfl).1 rfl,
   (c2_cancel_on_normal_return_only cfgT1 behP req0 (by decide) rfl).2 rfl⟩

/-! ### Claim C3 -/

/-- Claim C3, counterexample: with prefix `/proxy` configured, a request
for `/other` — whose path does not begin with the prefix — is answered
404 Not Found by `http.StripPrefix` and the downstream handler is never
invoked, contrary to the claim that such a request is passed downstream
unmodified. -/
theorem c3_counterexample :
    hasPfx reqOther.url.path cfgPfx.pathPfx = false ∧
      (buildHandler cfgPfx).run behN reqOther = ([.wroteNotFound], .normal) ∧
      Event.invokeGoproxy reqOther ∉ ((buildHandler cfgPfx).run behN reqOther).1 := by
  decide

/-- Claim C3, amended: with a nonempty configured prefix, a request whose
path begins with the prefix (and whose raw path, when nonempty, also
begins with it) reaches the downstream handler with the prefix removed
from both URL fields; a request whose path does not begin with the prefix
is answered 404 Not Found and the downstream handler is not invoked. -/
theorem c3_strip_or_404 (cfg : ServerCmdConfig) (h : Handler) (beh : Behavior)
    (req : Request) (hp : cfg.pathPfx ≠ []) :
    (hasPfx req.url.path cfg.pathPfx = true →
      (req.url.rawPath = [] ∨ hasPfx req.url.rawPath cfg.pathPfx = true) →
      (stripPfxH cfg.pathPfx h).run beh req =
        h.run beh { req with
          url := ⟨req.url.path.drop cfg.pathPfx.length,
                  trimPfx req.url.rawPath cfg.pathPfx⟩ }) ∧
    (hasPfx req.url.path cfg.pathPfx = false →
      (stripPfxH cfg.pathPfx h).run beh req = ([.wroteNotFound], .normal)) := by
  have hsp : stripPfxH cfg.pathPfx h = .stripPfx cfg.pathPfx h := by
    simp [stripPfxH, hp]
  have hp0 : 0 < cfg.pathPfx.length := List.length_pos.mpr hp
  constructor
  · intro h1 h2
    have hl : cfg.pathPfx.length ≤ req.url.path.length := hasPfx_le _ _ h1
    have ht1 : trimPfx req.url.path cfg.pathPfx =
        req.url.path.drop cfg.pathPfx.length := trimPfx_of_pos _ _ h1
    have hcond : (trimPfx req.url.path cfg.pathPfx).length < req.url.path.length ∧
        (req.url.rawPath = [] ∨
          (trimPfx req.url.rawPath cfg.pathPfx).length <
            req.url.rawPath.length) := by
      constructor
      · rw [ht1]; simp only [List.length_drop]; omega
      · cases h2 with
        | inl hraw => exact Or.inl hraw
        | inr hraw =>
          refine Or.inr ?_
          have hl2 : cfg.pathPfx.length ≤ req.url.rawPath.length :=
            hasPfx_le _ _ hraw
          rw [trimPfx_of_pos _ _ hraw]
          simp only [List.length_drop]; omega
    rw [hsp]
    simp only [Handler.run]
    rw [if_pos hcond, ht1]
  · intro h1
    have ht1 : trimPfx req.url.path cfg.pathPfx = req.url.path :=
      trimPfx_of_neg _ _ h1
    rw [hsp]
    simp only [Handler.run]
    rw [if_neg]
    intro hcond
    rw [ht1] at hcond
    exact lt_irrefl _ hcond.1

/-- Witness for `c3_strip_or_404`: prefix `/proxy` with path
`/proxy/mod/info` hands the downstream handler the path `/mod/info`;
prefix `/proxy` with path `/other` writes a 404 and never invokes the
downstream handler. -/
theorem c3_witness :
    (stripPfxH cfgPfx.pathPfx .goproxyH).run behN reqProxy =
        ([.invokeGoproxy ⟨.background, ⟨"/mod/info".toList, []⟩⟩], .normal) ∧
      (stripPfxH cfgPfx.pathPfx .goproxyH).run behN reqOther =
        ([.wroteNotFound], .normal) :=
  ⟨((c3_strip_or_404 cfgPfx .goproxyH behN reqProxy (by decide)).1 (by decide)
      (Or.inl rfl)).trans (by decide),
   (c3_strip_or_404 cfgPfx .goproxyH behN reqOther (by decide)).2 (by decide)⟩

/-! ### Claim C4 -/

/-- Claim C4, counterexample: the input `xC:/foo` does not begin with a
path separator, yet `httpDirFS.Open` on a drive-letter platform does not
reject it — `name[1:]` removes the `x` without checking it, the remainder
`C:\foo` carries a valid drive designator, and the file is opened — so
the claimed leading-separator requirement does not exist in the code. -/
theorem c4_counterexample :
    ("xC:/foo".toList.headD ' ') = 'x' ∧ isSlash 'x' = false ∧
      openW fsC4 "xC:/foo".toList = .ok "C:\\foo".toList fooBytes := by
  decide

/-- Claim C4, amended: on drive-letter platforms `httpDirFS.Open` strips
the first character of the converted path unconditionally — without
verifying that it is a path separator — and then requires the remainder to
carry a non-empty drive designator that is not a network-share (UNC)
prefix, returning an InvalidPath-style error when that designator
requirement fails. -/
theorem c4_strip_unconditional :
    (∀ (fs : FSys) (c : Char) (rest : Str),
      openW fs (c :: rest) = openWAfterStrip fs (fromSlashW rest)) ∧
    (∀ (fs : FSys) (name : Str),
      (volumeName name = [] ∨ hasPfx (volumeName name) bs2 = true) →
        openWAfterStrip fs name = .invalidPath driveLetterMsg) := by
  constructor
  · intro fs c rest; rfl
  · intro fs name h; simp [openWAfterStrip, h]

/-- Witness for `c4_strip_unconditional`: the non-separator first
character `x` is stripped all the same, and a drive-less remainder is
rejected with the drive-letter error. -/
theorem c4_witness :
    openW fsC4 ('x' :: "C:/foo".toList) =
        openWAfterStrip fsC4 (fromSlashW "C:/foo".toList) ∧
      openWAfterStrip fsC4 "foo".toList = .invalidPath driveLetterMsg :=
  ⟨c4_strip_unconditional.1 fsC4 'x' "C:/foo".toList,
   c4_strip_unconditional.2 fsC4 "foo".toList (Or.inl (by decide))⟩

/-! ### Claim C5 -/

/-- Claim C5, counterexample: the input `yD:/bar` is not an absolute path
(under either platform's `filepath.IsAbs`), yet drive-letter `Open` does
not fail with an InvalidPath-style error: after the unconditional
first-character strip the remainder `D:\bar` is absolute and the file is
opened and returned. -/
theorem c5_counterexample :
    isAbsW "yD:/bar".toList = false ∧ isAbsU "yD:/bar".toList = false ∧
      openW fsC5 "yD:/bar".toList = .ok "D:\\bar".toList barBytes := by
  decide

/-- Claim C5, amended: the absoluteness and drive checks apply to the path
after the platform conversion and (on drive-letter platforms) the
unconditional first-character strip. On non-drive-letter platforms every
non-absolute input fails with the InvalidPath-style error independently of
the filesystem; on drive-letter platforms every non-empty input whose
stripped remainder is not absolute fails with one of the two
InvalidPath-style errors independently of the filesystem; a valid absolute
path naming an existing readable file yields an open handle on exactly
that file with its exact byte contents; and a UNC-prefixed designator is
always rejected. -/
theorem c5_invalid_or_exact_contents :
    (∀ (fs : FSys) (name : Str),
      isAbsU name = false → openU fs name = .invalidPath notAbsoluteMsg) ∧
    (∀ (fs : FSys) (c : Char) (rest : Str),
      isAbsW (fromSlashW rest) = false →
        openW fs (c :: rest) = .invalidPath driveLetterMsg ∨
          openW fs (c :: rest) = .invalidPath notAbsoluteMsg) ∧
    (∀ (fs : FSys) (name : Str) (bytes : Bytes),
      isAbsU name = true → fs name = some bytes →
        openU fs name = .ok name bytes) ∧
    (∀ (fs : FSys) (c : Char) (rest : Str) (bytes : Bytes),
      volumeName (fromSlashW rest) ≠ [] →
        hasPfx (volumeName (fromSlashW rest)) bs2 = false →
        isAbsW (fromSlashW rest) = true →
        fs (fromSlashW rest) = some bytes →
        openW fs (c :: rest) = .ok (fromSlashW rest) bytes) ∧
    (∀ (fs : FSys) (c : Char) (rest : Str),
      hasPfx (volumeName (fromSlashW rest)) bs2 = true →
        openW fs (c :: rest) = .invalidPath driveLetterMsg) := by
  refine ⟨?_, ?_, ?_, ?_, ?_⟩
  · intro fs name h; simp [openU, h]
  · intro fs c rest hb
    have he : openW fs (c :: rest) = openWAfterStrip fs (fromSlashW rest) := rfl
    rw [he]
    by_cases h1 : volumeName (fromSlashW rest) = [] ∨
        hasPfx (volumeName (fromSlashW rest)) bs2 = true
    · left; simp [openWAfterStrip, h1]
    · right; simp [openWAfterStrip, h1, hb]
  · intro fs name bytes ha hfs; simp [openU, ha, osOpen, hfs]
  · intro fs c rest bytes hv hpfx ha hfs
    have he : openW fs (c :: rest) = openWAfterStrip fs (fromSlashW rest) := rfl
    have h1 : ¬ (volumeName (fromSlashW rest) = [] ∨
        hasPfx (volumeName (fromSlashW rest)) bs2 = true) := by
      push_neg
      exact ⟨hv, by simp [hpfx]⟩
    rw [he]
    simp [openWAfterStrip, h1, ha, osOpen, hfs]
  · intro fs c rest hunc
    have he : openW fs (c :: rest) = openWAfterStrip fs (fromSlashW rest) := rfl
    rw [he]
    simp [openWAfterStrip, hunc]

/-- Witness for `c5_invalid_or_exact_contents`: a relative Unix path is
rejected, a drive-less stripped remainder lands in one of the two errors,
an existing absolute Unix file is returned byte-exactly, a drive-letter
file is returned byte-exactly, and a UNC root is rejected. -/
theorem c5_witness :
    openU fsU "rel/x".toList = .invalidPath notAbsoluteMsg ∧
      (openW fsU ('/' :: "foo".toList) = .invalidPath driveLetterMsg ∨
        openW fsU ('/' :: "foo".toList) = .invalidPath notAbsoluteMsg) ∧
      openU fsU "/etc/hosts".toList = .ok "/etc/hosts".toList hostsBytes ∧
      openW fsC5 ('/' :: "D:/bar".toList) =
        .ok (fromSlashW "D:/bar".toList) barBytes ∧
      openW fsU ('/' :: "//host/share/x".toList) = .invalidPath driveLetterMsg :=
  ⟨c5_invalid_or_exact_contents.1 fsU "rel/x".toList (by decide),
   c5_invalid_or_exact_contents.2.1 fsU '/' "foo".toList (by decide),
   c5_invalid_or_exact_contents.2.2.1 fsU "/etc/hosts".toList hostsBytes
     (by decide) (by decide),
   c5_invalid_or_exact_contents.2.2.2.1 fsC5 '/' "D:/bar".toList barBytes
     (by decide) (by decide) (by decide) (by decide),
   c5_invalid_or_exact_contents.2.2.2.2 fsU '/' "//host/share/x".toList
     (by decide)⟩

/-! ### Claim C9 -/

/-- Claim C9: on drive-letter platforms the unconditional `name[1:]` slice
makes `httpDirFS.Open` panic on the empty input (slice bounds out of
range), while for every non-empty input on drive-letter platforms, and for
every input on non-drive-letter platforms, `Open` is total — it returns an
error or an open file and never panics. -/
theorem c9_empty_input_panics :
    (∀ fs : FSys, openW fs [] = .panic) ∧
      (∀ (fs : FSys) (name : Str), name ≠ [] → openW fs name ≠ .panic) ∧
      (∀ (fs : FSys) (name : Str), openU fs name ≠ .panic) := by
  refine ⟨?_, ?_, ?_⟩
  · intro fs; rfl
  · intro fs name hne
    cases name with
    | nil => exact absurd rfl hne
    | cons c rest =>
      have he : openW fs (c :: rest) = openWAfterStrip fs (fromSlashW rest) := rfl
      rw [he]
      exact openWAfterStrip_ne_panic fs _
  · intro fs name
    by_cases h : isAbsU name = false
    · simp [openU, h]
    · cases h3 : fs name <;> simp [openU, osOpen, h, h3]

/-- Witness for `c9_empty_input_panics`: the empty input panics, a
concrete non-empty input does not, and the Unix variant never does. -/
theorem c9_witness :
    openW fsU [] = .panic ∧ openW fsU "/x".toList ≠ .panic ∧
      openU fsU "/x".toList ≠ .panic :=
  ⟨c9_empty_input_panics.1 fsU,
   c9_empty_input_panics.2.1 fsU "/x".toList (by decide),
   c9_empty_input_panics.2.2 fsU "/x".toList⟩
